import Mathlib

/-!
Shallow embedding of the `publicprs` tool (`main.go`).

The tool reads a GitHub token from the environment, resolves a project
board id, fetches all members of a list of organizations (paginated
REST), fetches all open pull requests of a repository (paginated
GraphQL), sorts them by creation time, filters out PRs authored by
organization members or by logins in an exclusion list, prints the
remainder, and optionally links each surviving PR to a project board.

Network responses are modelled by oracles packaged in a `World`; the
pure control flow of `main` is translated statement by statement.
`log.Fatalf` is modelled as an `Except.error` result that carries the
message and short-circuits the run; the list of `NetCall`s returned by
`runMain` records, in order, which network round-trips were issued.
-/

/-- Result of `time.Parse(time.RFC3339, s)` on a PR's `createdAt` string,
abstracted: a string either parses to a timestamp (modelled as a `Nat`)
or is malformed. -/
inductive DateTime where
  | valid (t : Nat)
  | malformed
  deriving DecidableEq, Repr

/-- A pull request as decoded from one GraphQL page in `main.go`
(lines 102-120), before `parseTime` runs on `createdAt`. -/
structure RawPR where
  number : Nat
  title : String
  url : String
  createdAt : DateTime
  author : String
  deriving DecidableEq, Repr

/-- A pull request after `parseTime` (the anonymous struct accumulated
in `pullRequests`, `main.go` lines 68-74). -/
structure PullRequest where
  number : Nat
  title : String
  url : String
  createdAt : Nat
  author : String
  deriving DecidableEq, Repr

/-- The command-line flags of `main.go` (lines 25-31) with their
default values. -/
structure Flags where
  owner : String := "rancher"
  repo : String := "rancher"
  orgs : String := "rancher,SUSE"
  includebots : Bool := false
  botstoexclude : String := ""
  addtoproject : Bool := false
  project : Nat := 79
  deriving Repr

/-- One node of the project's `items(first: 100)` listing in
`checkPRInProject` (`main.go` lines 363-374): an item id and the content
id (empty when the content is not a pull request). -/
structure ProjectItem where
  itemId : String
  contentId : String
  deriving DecidableEq, Repr

/-- Oracle responses for the three network round-trips that
`addPRToProject` makes for one PR: `getPullRequestID`, the transport of
the `checkPRInProject` query, and the transport of the
`addProjectV2ItemById` mutation. -/
structure SyncEnv where
  prIDResult : Except String String
  itemsTransport : Except String Unit
  mutationTransport : Except String Unit

/-- A network round-trip issued by the run, recorded in order. One
`memberFetch` entry stands for the whole paginated listing of one
organization, one `prFetch` entry for the whole paginated PR listing. -/
inductive NetCall where
  | projectLookup
  | memberFetch (org : String)
  | prFetch
  | prIDLookup (pr : Nat)
  | itemsList
  | addItem
  deriving DecidableEq, Repr

/-- What the run prints: the surviving PRs in print order, the per-PR
sync lines `(number, added?)` (printed whenever `addtoproject` is set,
`main.go` lines 166-170), and the `log.Printf` error lines of the sync
step (line 164). -/
structure Report where
  reported : List PullRequest
  syncLog : List (Nat × Bool)
  errLog : List String
  deriving Repr

/-- The environment of one run: the `GITHUB_TOKEN` variable (the empty
string models an unset variable, as `os.Getenv` returns `""` then), and
oracles for every upstream endpoint. -/
structure World where
  githubToken : String
  projectIDResult : Except String String
  orgMembersResult : String → Except String (List String)
  prFetchResult : Except String (List RawPR)
  projectItems : List ProjectItem
  syncEnv : Nat → SyncEnv

/-- Go's `members[member.Login] = true` on a `map[string]bool`: the set
is modelled as a duplicate-free list, insertion is a no-op on a present
key. -/
def mapInsert (members : List String) (login : String) : List String :=
  if login ∈ members then members else members ++ [login]

/-- Models `parseTime` (`main.go` lines 177-183): a malformed date-time
hits `log.Fatalf`, modelled as an error result. -/
def parseTime : DateTime → Except String Nat
  | .valid t => .ok t
  | .malformed => .error "Error parsing date-time"

/-- The per-node conversion in the PR fetch loop (`main.go` lines
126-140): each raw PR's `createdAt` goes through `parseTime`; the first
malformed one aborts the run. -/
def parsePRs : List RawPR → Except String (List PullRequest)
  | [] => .ok []
  | r :: rest =>
    match parseTime r.createdAt with
    | .error e => .error e
    | .ok t =>
      match parsePRs rest with
      | .error e => .error e
      | .ok tail => .ok (⟨r.number, r.title, r.url, t, r.author⟩ :: tail)

/-- The filter of the report loop (`main.go` lines 155-158): a PR is
printed when its author is not a member and not skipped by
`!*includeBots && slices.Contains(botsToExcludeList, pr.Author)`. -/
def survivesFilter (members : List String) (includeBots : Bool)
    (botsToExcludeList : List String) (author : String) : Bool :=
  !(members.contains author) && !(!includeBots && botsToExcludeList.contains author)

/-- The comparison `pullRequests[i].CreatedAt.Before(pullRequests[j].CreatedAt)`
induces a nondecreasing order on `createdAt`; `sort.Slice` (`main.go`
lines 148-150) is modelled at the level of its contract, a permutation
sorted w.r.t. this order. (The concrete, unstable pdqsort algorithm that
`sort.Slice` runs is embedded separately in the `GoSort` namespace.) -/
def createdAtLE (p q : PullRequest) : Prop := p.createdAt ≤ q.createdAt

instance : DecidableRel createdAtLE := fun p q =>
  inferInstanceAs (Decidable (p.createdAt ≤ q.createdAt))

instance : IsTotal PullRequest createdAtLE :=
  ⟨fun a b => Nat.le_total a.createdAt b.createdAt⟩

instance : IsTrans PullRequest createdAtLE :=
  ⟨fun _ _ _ h1 h2 => Nat.le_trans h1 h2⟩

/-- The sorting step of `main.go` lines 148-150, modelled by a sorted
permutation w.r.t. `createdAtLE`. -/
def sortByCreatedAt (prs : List PullRequest) : List PullRequest :=
  List.insertionSort createdAtLE prs

/-- `checkPRInProject` (`main.go` lines 341-387): the query asks for the
first 100 project items (`items(first: 100)`, no pagination) and the loop
reports whether any returned node's content id equals the PR's id. -/
def checkPRInProject (items : List ProjectItem) (prID : String) : Bool :=
  ((items.take 100).map ProjectItem.contentId).contains prID

/-- `addPRToProject` (`main.go` lines 215-259): resolve the PR's global
id, check the project's items, and only when the check finds no match
issue the `addProjectV2ItemById` mutation. Returns the
`(added, err)` outcome, the project state after the call, and the
network calls issued. -/
def addPRToProject (env : SyncEnv) (prNumber : Nat) (items : List ProjectItem) :
    Except String Bool × List ProjectItem × List NetCall :=
  match env.prIDResult with
  | .error e =>
    (.error ("error fetching global ID for PR: " ++ e), items, [.prIDLookup prNumber])
  | .ok prID =>
    match env.itemsTransport with
    | .error e =>
      (.error ("error checking PR in project: " ++ e), items, [.prIDLookup prNumber, .itemsList])
    | .ok _ =>
      if checkPRInProject items prID then
        (.ok false, items, [.prIDLookup prNumber, .itemsList])
      else
        match env.mutationTransport with
        | .error e =>
          (.error ("error adding PR to project: " ++ e), items,
            [.prIDLookup prNumber, .itemsList, .addItem])
        | .ok _ =>
          (.ok true, items ++ [⟨prID, prID⟩], [.prIDLookup prNumber, .itemsList, .addItem])

/-- The report loop of `main.go` lines 154-173, over the sorted PR list:
non-surviving PRs are skipped; surviving PRs are printed; when
`addtoproject` is set, `addPRToProject` runs, a sync error is logged
(`log.Printf`, line 164) and the loop moves on, and the
`added`/`already in project` line is printed from the returned boolean
(which is `false` on error, as in the Go code). -/
def reportLoop (members : List String) (includeBots : Bool) (botsList : List String)
    (addToProject : Bool) (syncEnv : Nat → SyncEnv) :
    List PullRequest → List ProjectItem → Report × List ProjectItem × List NetCall
  | [], items => (⟨[], [], []⟩, items, [])
  | pr :: rest, items =>
    if survivesFilter members includeBots botsList pr.author then
      if addToProject then
        let step := addPRToProject (syncEnv pr.number) pr.number items
        let added := match step.1 with
          | .ok b => b
          | .error _ => false
        let errs : List String := match step.1 with
          | .ok _ => []
          | .error e => ["Error adding PR #" ++ toString pr.number ++ " to project: " ++ e]
        let tail := reportLoop members includeBots botsList addToProject syncEnv rest step.2.1
        (⟨pr :: tail.1.reported, (pr.number, added) :: tail.1.syncLog, errs ++ tail.1.errLog⟩,
          tail.2.1, step.2.2 ++ tail.2.2)
      else
        let tail := reportLoop members includeBots botsList addToProject syncEnv rest items
        (⟨pr :: tail.1.reported, tail.1.syncLog, tail.1.errLog⟩, tail.2.1, tail.2.2)
    else
      reportLoop members includeBots botsList addToProject syncEnv rest items

/-- The member-fetch phase of `main.go` lines 57-64: each organization's
listing is resolved in order; the first failure is fatal with the
message of line 61. -/
def fetchMembersPhase (w : World) :
    List String → List String → Except String (List String) × List NetCall
  | [], acc => (.ok acc, [])
  | org :: rest, acc =>
    match w.orgMembersResult org with
    | .error e =>
      (.error ("Error fetching members from " ++ org ++ " organization: " ++ e),
        [.memberFetch org])
    | .ok logins =>
      let acc' := logins.foldl mapInsert acc
      let tail := fetchMembersPhase w rest acc'
      (tail.1, .memberFetch org :: tail.2)

/-- The body of `main` after the `GITHUB_TOKEN` check (`main.go` lines
41-173): split the `orgs` and `botstoexclude` flags on commas, resolve
the project id (fatal on failure, line 53), fetch members (fatal on
failure), fetch and parse the PRs (fatal on failure), sort, and run the
report loop. The leading `projectLookup` call is prepended by
`runMain`. -/
def runMainAfterToken (f : Flags) (w : World) : Except String Report × List NetCall :=
  let orgList := f.orgs.splitOn ","
  let botsList := f.botstoexclude.splitOn ","
  match w.projectIDResult with
  | .error e => (.error ("Failed to fetch project ID: " ++ e), [])
  | .ok _projectID =>
    match fetchMembersPhase w orgList [] with
    | (.error e, mcalls) => (.error e, mcalls)
    | (.ok members, mcalls) =>
      match w.prFetchResult with
      | .error e => (.error ("Error fetching PRs: " ++ e), mcalls ++ [.prFetch])
      | .ok raws =>
        match parsePRs raws with
        | .error e => (.error e, mcalls ++ [.prFetch])
        | .ok prs =>
          let sorted := sortByCreatedAt prs
          let loop := reportLoop members f.includebots botsList f.addtoproject w.syncEnv
            sorted w.projectItems
          (.ok loop.1, mcalls ++ [.prFetch] ++ loop.2.2)

/-- `main` (`main.go` lines 24-174): the token check of lines 36-39 runs
before any network call — an empty `GITHUB_TOKEN` is fatal with an empty
call trace; otherwise the project lookup of line 51 is the first network
call of the run. -/
def runMain (f : Flags) (w : World) : Except String Report × List NetCall :=
  if w.githubToken = "" then (.error "GITHUB_TOKEN is required", [])
  else
    let rest := runMainAfterToken f w
    (rest.1, NetCall.projectLookup :: rest.2)

/-- One page of a mocked organization-members listing with `per_page=100`
(the value hardcoded in `fetchOrgMembers`, `main.go` line 300): page `p`
(1-based, as in the code) serves the logins at positions
`(p-1)*100 … p*100-1` of the full listing. -/
def pagedListing (all : List String) (page : Nat) : List String :=
  (all.drop ((page - 1) * 100)).take 100

/-- The pagination loop of `fetchOrgMembers` (`main.go` lines 303-335)
against a mocked listing where every page succeeds: `remaining` is the
suffix of the listing not yet served, so the current page is
`remaining.take 100` (equal to `pagedListing all page` when
`remaining = all.drop ((page-1)*100)`). Each iteration issues one HTTP
request, inserts the page's logins into the member set, and stops as
soon as a page has fewer than 100 items (line 331). Returns the member
set and the number of requests issued. -/
def fetchOrgMembersLoop (remaining : List String) (members : List String)
    (requests : Nat) : List String × Nat :=
  let pageItems := remaining.take 100
  let members' := pageItems.foldl mapInsert members
  if h : pageItems.length < 100 then (members', requests + 1)
  else fetchOrgMembersLoop (remaining.drop 100) members' (requests + 1)
termination_by remaining.length
decreasing_by
  unfold pageItems at h
  simp only [List.length_take, List.length_drop, not_lt, le_min_iff] at *
  omega

/-- `fetchOrgMembers` (`main.go` lines 295-338) run against a mocked
listing `all`, starting (as the claim does) from an empty member set. -/
def fetchOrgMembers (all : List String) : List String × Nat :=
  fetchOrgMembersLoop all [] 0

/-!
Embedding of Go's `sort.Slice` as run by `main.go` lines 148-150.

`sort.Slice` (Go 1.22, `sort/slice.go`) computes
`limit := bits.Len(uint(length))` and calls `pdqsort_func(lessSwap{less,
swap}, 0, length, limit)` from `sort/zsortfunc.go`. The slice of
anonymous PR structs is modelled as a list of `(createdAt, number)`
pairs and `less i j` is `CreatedAt.Before`, i.e. `<` on the first
component. Go slice indices are `int`s that never go negative in these
routines (every `j-1` is guarded by a bound keeping `j ≥ 1` on reachable
states), so indices are modelled as `Nat`. The unbounded loops of
`pdqsort_func`, `partition_func` and `partitionEqual_func` take a fuel
argument and return `none` when it runs out, so a `some` result is a
completed run of the Go code.
-/

namespace GoSort

/-- The sorted slice element: `(CreatedAt, Number)` of one PR. -/
abbrev GoSlice : Type := List (Nat × Nat)

/-- Read the element at index `i` (always in bounds in reachable calls). -/
def elemAt (d : GoSlice) (i : Nat) : Nat × Nat :=
  List.getD d i (0, 0)

/-- `data.Less(i, j)`: `pullRequests[i].CreatedAt.Before(pullRequests[j].CreatedAt)`. -/
def goLess (d : GoSlice) (i j : Nat) : Bool :=
  decide ((elemAt d i).1 < (elemAt d j).1)

/-- `data.Swap(i, j)`. -/
def goSwap (d : GoSlice) (i j : Nat) : GoSlice :=
  let x := elemAt d i
  let y := elemAt d j
  List.set (List.set d i y) j x

/-- The inner loop of `insertionSort_func`:
`for j := i; j > a && data.Less(j, j-1); j--  { data.Swap(j, j-1) }`. -/
def insertionSortInner (d : GoSlice) (a j : Nat) : GoSlice :=
  if h : a < j ∧ goLess d j (j - 1) = true then
    insertionSortInner (goSwap d j (j - 1)) a (j - 1)
  else d
termination_by j
decreasing_by omega

/-- The outer loop of `insertionSort_func`: `for i := a + 1; i < b; i++`. -/
def insertionSortOuter (d : GoSlice) (a b i : Nat) : GoSlice :=
  if h : i < b then insertionSortOuter (insertionSortInner d a i) a b (i + 1)
  else d
termination_by b - i
decreasing_by omega

/-- `insertionSort_func(data, a, b)` from `sort/zsortfunc.go`. -/
def insertionSort (d : GoSlice) (a b : Nat) : GoSlice :=
  insertionSortOuter d a b (a + 1)

/-- The loop of `siftDown_func(data, lo, hi, first)` with `root` the
loop variable (initially `lo`). -/
def siftDownLoop (d : GoSlice) (hi first root : Nat) : GoSlice :=
  let child := 2 * root + 1
  if _h : child ≥ hi then d
  else
    let child' := if child + 1 < hi ∧ goLess d (first + child) (first + child + 1) = true
      then child + 1 else child
    if goLess d (first + root) (first + child') = true then
      siftDownLoop (goSwap d (first + root) (first + child')) hi first child'
    else d
termination_by hi - root
decreasing_by
  unfold child' child at *
  split <;> omega

/-- `siftDown_func(data, lo, hi, first)`. -/
def siftDown (d : GoSlice) (lo hi first : Nat) : GoSlice :=
  siftDownLoop d hi first lo

/-- The heap-building loop of `heapSort_func`:
`for i := (hi - 1) / 2; i >= 0; i--`, counted down by the number of
iterations still to run (`k` means the next value of `i` is `k - 1`). -/
def heapSortBuild (d : GoSlice) (hi first : Nat) : Nat → GoSlice
  | 0 => d
  | k + 1 => heapSortBuild (siftDown d k hi first) hi first k

/-- The pop loop of `heapSort_func`: `for i := hi - 1; i >= 0; i--
{ data.Swap(first, first+i); siftDown_func(data, lo, i, first) }`. -/
def heapSortPop (d : GoSlice) (first : Nat) : Nat → GoSlice
  | 0 => d
  | k + 1 => heapSortPop (siftDown (goSwap d first (first + k)) 0 k first) first k

/-- `heapSort_func(data, a, b)`: build the heap (the build loop runs
`(hi-1)/2 + 1` times, also when `hi = 0` since Go's `(0-1)/2 = 0`), then
pop `hi` maxima. -/
def heapSort (d : GoSlice) (a b : Nat) : GoSlice :=
  let first := a
  let hi := b - a
  heapSortPop (heapSortBuild d hi first ((hi - 1) / 2 + 1)) first hi

/-- The loop of `reverseRange_func`: `i, j := a, b-1; for i < j
{ data.Swap(i, j); i++; j-- }`. -/
def reverseRangeLoop (d : GoSlice) (i j : Nat) : GoSlice :=
  if h : i < j then reverseRangeLoop (goSwap d i j) (i + 1) (j - 1)
  else d
termination_by j - i
decreasing_by omega

/-- `reverseRange_func(data, a, b)`. -/
def reverseRange (d : GoSlice) (a b : Nat) : GoSlice :=
  reverseRangeLoop d a (b - 1)

/-- `order2_func(data, a, b, &swaps)`: order two indices by their
elements, counting a swap. -/
def order2 (d : GoSlice) (a b swaps : Nat) : Nat × Nat × Nat :=
  if goLess d b a then (b, a, swaps + 1) else (a, b, swaps)

/-- `median_func(data, a, b, c, &swaps)`: index of the median of three
elements, returned with the updated swap counter (Go reassigns
`a, b = order2(a, b)`, `b, c = order2(b, c)`, `a, b = order2(a, b)` and
returns `b`). -/
def median (d : GoSlice) (a b c swaps : Nat) : Nat × Nat :=
  let (a1, b1, s1) := order2 d a b swaps
  let (b2, _c2, s2) := order2 d b1 c s1
  let (_a3, b3, s3) := order2 d a1 b2 s2
  (b3, s3)

/-- `medianAdjacent_func(data, a, &swaps)` =
`median_func(data, a-1, a, a+1, &swaps)`. -/
def medianAdjacent (d : GoSlice) (a swaps : Nat) : Nat × Nat :=
  median d (a - 1) a (a + 1) swaps

/-- The three sortedness hints of `sort/zsortfunc.go`
(`unknownHint`, `increasingHint`, `decreasingHint`). -/
inductive SortedHint where
  | unknown
  | increasing
  | decreasing
  deriving DecidableEq, Repr

/-- `choosePivot_func(data, a, b)`: candidates at `a + l/4*1..3`, the
Tukey ninther for `l ≥ 50`, the median of three for `l ≥ 8`, and a hint
from the swap counter (`0` means increasing, `12` means decreasing). -/
def choosePivot (d : GoSlice) (a b : Nat) : Nat × SortedHint :=
  let l := b - a
  let i := a + l / 4 * 1
  let j := a + l / 4 * 2
  let k := a + l / 4 * 3
  let (j', swaps) :=
    if 8 ≤ l then
      let (i1, j1, k1, s1) :=
        if 50 ≤ l then
          let (i1, sA) := medianAdjacent d i 0
          let (j1, sB) := medianAdjacent d j sA
          let (k1, sC) := medianAdjacent d k sB
          (i1, j1, k1, sC)
        else (i, j, k, 0)
      median d i1 j1 k1 s1
    else (j, 0)
  if swaps = 0 then (j', SortedHint.increasing)
  else if swaps = 12 then (j', SortedHint.decreasing)
  else (j', SortedHint.unknown)

/-- The scan `for i < b && !data.Less(i, i-1) { i++ }` of
`partialInsertionSort_func` (the data is not mutated while scanning). -/
def scanAscending (d : GoSlice) (b i : Nat) : Nat :=
  if h : i < b ∧ goLess d i (i - 1) = false then scanAscending d b (i + 1)
  else i
termination_by b - i
decreasing_by omega

/-- The shift-left loop of `partialInsertionSort_func`:
`for j := i - 1; j >= 1; j-- { if !data.Less(j, j-1) break;
data.Swap(j, j-1) }`, started at `j = i - 1`. -/
def shiftLeftLoop (d : GoSlice) (j : Nat) : GoSlice :=
  if h : 1 ≤ j ∧ goLess d j (j - 1) = true then
    shiftLeftLoop (goSwap d j (j - 1)) (j - 1)
  else d
termination_by j
decreasing_by omega

/-- The shift-right loop of `partialInsertionSort_func`:
`for j := i + 1; j < b; j++ { if !data.Less(j, j-1) break;
data.Swap(j, j-1) }`, started at `j = i + 1`. -/
def shiftRightLoop (d : GoSlice) (b j : Nat) : GoSlice :=
  if h : j < b ∧ goLess d j (j - 1) = true then
    shiftRightLoop (goSwap d j (j - 1)) b (j + 1)
  else d
termination_by b - j
decreasing_by omega

/-- The outer loop of `partialInsertionSort_func` (`maxSteps = 5`,
`shortestShifting = 50`), counted down by the remaining steps; returns
the (possibly mutated) data and whether the range ended up sorted. -/
def partInsertionSortLoop (d : GoSlice) (a b i : Nat) : Nat → GoSlice × Bool
  | 0 => (d, false)
  | steps + 1 =>
    let i' := scanAscending d b i
    if i' = b then (d, true)
    else if b - a < 50 then (d, false)
    else
      let d1 := goSwap d i' (i' - 1)
      let d2 := if 2 ≤ i' - a then shiftLeftLoop d1 (i' - 1) else d1
      let d3 := if 2 ≤ b - i' then shiftRightLoop d2 b (i' + 1) else d2
      partInsertionSortLoop d3 a b i' steps

/-- `partialInsertionSort_func(data, a, b)`: partially sorts the range,
moving at most five out-of-order adjacent pairs. -/
def partInsertionSort (d : GoSlice) (a b : Nat) : GoSlice × Bool :=
  partInsertionSortLoop d a b (a + 1) 5

/-- The scan `for i <= j && data.Less(i, a) { i++ }` of
`partition_func` (the pivot sits at index `a`). -/
def partitionScanI (d : GoSlice) (a j i : Nat) : Nat → Option Nat
  | 0 => none
  | fuel + 1 =>
    if i ≤ j ∧ goLess d i a = true then partitionScanI d a j (i + 1) fuel
    else some i

/-- The scan `for i <= j && !data.Less(j, a) { j-- }` of
`partition_func`. In every reachable call `i ≥ a + 1 ≥ 1`, so the loop
never decrements `j` below `0` and the `Nat` truncation of `j - 1` is
not observable. -/
def partitionScanJ (d : GoSlice) (a i j : Nat) : Nat → Option Nat
  | 0 => none
  | fuel + 1 =>
    if i ≤ j ∧ goLess d j a = false then partitionScanJ d a i (j - 1) fuel
    else some j

/-- The main loop of `partition_func`: scan from both ends, stop when
the cursors cross, otherwise swap and continue. Returns the data and the
final `j`. -/
def partitionLoop (d : GoSlice) (a i j : Nat) : Nat → Option (GoSlice × Nat)
  | 0 => none
  | fuel + 1 => do
    let i1 ← partitionScanI d a j i fuel
    let j1 ← partitionScanJ d a i1 j fuel
    if j1 < i1 then some (d, j1)
    else partitionLoop (goSwap d i1 j1) a (i1 + 1) (j1 - 1) fuel

/-- `partition_func(data, a, b, pivot)`: moves the pivot to `a`,
partitions `data[a+1:b]` around it, and returns the new pivot position
together with the `alreadyPartitioned` flag (true when the first pair of
scans already crossed). -/
def partition (d : GoSlice) (a b pivot : Nat) (fuel : Nat) :
    Option (GoSlice × Nat × Bool) := do
  let d0 := goSwap d a pivot
  let i0 ← partitionScanI d0 a (b - 1) (a + 1) fuel
  let j0 ← partitionScanJ d0 a i0 (b - 1) fuel
  if j0 < i0 then
    some (goSwap d0 j0 a, j0, true)
  else
    let d1 := goSwap d0 i0 j0
    let r ← partitionLoop d1 a (i0 + 1) (j0 - 1) fuel
    some (goSwap r.1 r.2 a, r.2, false)

/-- The scan `for i <= j && !data.Less(a, i) { i++ }` of
`partitionEqual_func`. -/
def peScanI (d : GoSlice) (a j i : Nat) : Nat → Option Nat
  | 0 => none
  | fuel + 1 =>
    if i ≤ j ∧ goLess d a i = false then peScanI d a j (i + 1) fuel
    else some i

/-- The scan `for i <= j && data.Less(a, j) { j-- }` of
`partitionEqual_func`. As for `partitionScanJ`, `i ≥ 1` in every
reachable call. -/
def peScanJ (d : GoSlice) (a i j : Nat) : Nat → Option Nat
  | 0 => none
  | fuel + 1 =>
    if i ≤ j ∧ goLess d a j = true then peScanJ d a i (j - 1) fuel
    else some j

/-- The loop of `partitionEqual_func`; returns the data and the final
`i`, which becomes the new left end. -/
def partitionEqualLoop (d : GoSlice) (a i j : Nat) : Nat → Option (GoSlice × Nat)
  | 0 => none
  | fuel + 1 => do
    let i1 ← peScanI d a j i fuel
    let j1 ← peScanJ d a i1 j fuel
    if j1 < i1 then some (d, i1)
    else partitionEqualLoop (goSwap d i1 j1) a (i1 + 1) (j1 - 1) fuel

/-- `partitionEqual_func(data, a, b, pivot)`: moves the pivot to `a` and
groups the elements equal to it at the front of the range. -/
def partitionEqual (d : GoSlice) (a b pivot : Nat) (fuel : Nat) :
    Option (GoSlice × Nat) :=
  partitionEqualLoop (goSwap d a pivot) a (a + 1) (b - 1) fuel

/-- `bits.Len(uint(n))`: the number of bits of `n`. -/
def bitsLen (n : Nat) : Nat :=
  if n = 0 then 0 else Nat.log2 n + 1

/-- `nextPowerOfTwo(length) = 1 << bits.Len(uint(length))` from
`sort/zsortfunc.go`. -/
def nextPowerOfTwo (length : Nat) : Nat :=
  1 <<< bitsLen length

/-- One step of the `xorshift` pseudo-random generator of
`sort/zsortfunc.go` on a 64-bit state:
`*r ^= *r << 13; *r ^= *r >> 7; *r ^= *r << 17`. -/
def xorshiftNext (r : Nat) : Nat :=
  let r1 := (r ^^^ (r <<< 13)) % 2 ^ 64
  let r2 := (r1 ^^^ (r1 >>> 7)) % 2 ^ 64
  (r2 ^^^ (r2 <<< 17)) % 2 ^ 64

/-- The three swaps of `breakPatterns_func`, iterated with the xorshift
state threaded through (`i = 0, 1, 2`). -/
def breakPatternsLoop (a length modulus idx : Nat) :
    Nat → GoSlice × Nat → GoSlice × Nat
  | 0, dr => dr
  | k + 1, (d, r) =>
    let i := 3 - (k + 1)
    let r' := xorshiftNext r
    let other0 := r' &&& (modulus - 1)
    let other := if length ≤ other0 then other0 - length else other0
    breakPatternsLoop a length modulus idx k (goSwap d (idx - 1 + i) (a + other), r')

/-- `breakPatterns_func(data, a, b)`: scatters three elements around the
middle of the range using `xorshift(length)` as seed (a no-op for ranges
shorter than 8). -/
def breakPatterns (d : GoSlice) (a b : Nat) : GoSlice :=
  let length := b - a
  if 8 ≤ length then
    let modulus := nextPowerOfTwo length
    let idx := a + length / 4 * 2 - 1
    (breakPatternsLoop a length modulus idx 3 (d, length)).1
  else d

/-- `pdqsort_func(data, a, b, limit)` from `sort/zsortfunc.go`
(`maxInsertion = 12`). The Go outer `for` loop carries `wasBalanced` and
`wasPartitioned` (both initialized to `true`, reset on every recursive
call); the loop and the recursion both consume one unit of fuel, so a
`some` result is a finished run of the Go code. -/
def pdqsortLoop (d : GoSlice) (a b limit : Nat)
    (wasBalanced wasPartitioned : Bool) : Nat → Option GoSlice
  | 0 => none
  | fuel + 1 =>
    let length := b - a
    if length ≤ 12 then some (insertionSort d a b)
    else if limit = 0 then some (heapSort d a b)
    else
      let (d0, limit0) :=
        if wasBalanced = false then (breakPatterns d a b, limit - 1) else (d, limit)
      let (pivot0, hint0) := choosePivot d0 a b
      let (d1, pivot1, hint1) :=
        if hint0 = SortedHint.decreasing then
          (reverseRange d0 a b, (b - 1) - (pivot0 - a), SortedHint.increasing)
        else (d0, pivot0, hint0)
      let step :=
        if wasBalanced = true ∧ wasPartitioned = true ∧ hint1 = SortedHint.increasing then
          partInsertionSort d1 a b
        else (d1, false)
      if step.2 = true then some step.1
      else
        let d2 := step.1
        if 0 < a ∧ goLess d2 (a - 1) pivot1 = false then
          match partitionEqual d2 a b pivot1 fuel with
          | none => none
          | some (d3, mid) =>
            pdqsortLoop d3 mid b limit0 wasBalanced wasPartitioned fuel
        else
          match partition d2 a b pivot1 fuel with
          | none => none
          | some (d3, mid, alreadyPartitioned) =>
            let leftLen := mid - a
            let rightLen := b - mid
            let balanced := decide (length / 8 ≤ min leftLen rightLen)
            if leftLen < rightLen then
              match pdqsortLoop d3 a mid limit0 true true fuel with
              | none => none
              | some d4 =>
                pdqsortLoop d4 (mid + 1) b limit0 balanced alreadyPartitioned fuel
            else
              match pdqsortLoop d3 (mid + 1) b limit0 true true fuel with
              | none => none
              | some d4 =>
                pdqsortLoop d4 a mid limit0 balanced alreadyPartitioned fuel

/-- `pdqsort_func(data, a, b, limit)` with fresh loop state. -/
def pdqsort (d : GoSlice) (a b limit fuel : Nat) : Option GoSlice :=
  pdqsortLoop d a b limit true true fuel

/-- `sort.Slice(pullRequests, less)` (`main.go` lines 148-150):
`limit := bits.Len(uint(length))`, then pdqsort over the whole slice.
The fuel `d.length + 64` is ample for every run that terminates within
that many loop iterations per nesting level; `some` certifies the Go
run finished. -/
def sortSlice (d : GoSlice) : Option GoSlice :=
  pdqsort d 0 d.length (bitsLen d.length) (d.length + 64)

end GoSort

/-!
Concrete inputs used by the counterexamples and witnesses.
-/

/-- The member set of the spec's example scenario. -/
def c2members : List String := ["alice", "bob"]

/-- The open PRs of the spec's example scenario: `#1` by `alice`,
`#2` by `carol`, `#3` by `bots-app[bot]`. -/
def c2prs : List PullRequest :=
  [⟨1, "t1", "u1", 1, "alice"⟩,
   ⟨2, "t2", "u2", 2, "carol"⟩,
   ⟨3, "t3", "u3", 3, "bots-app[bot]"⟩]

/-- A mocked members listing with exactly 100 logins: page 1 returns
exactly 100 items (the page size), page 2 is empty. -/
def c3mock : List String := List.replicate 100 "member"

/-- Thirteen open PRs; two of them (#1 and #4) share the creation
timestamp 7. Thirteen elements exceed pdqsort's `maxInsertion = 12`
threshold, so `sort.Slice` partitions before insertion-sorting. -/
def c5prs : List PullRequest :=
  [⟨0, "t0", "u0", 4, "a0"⟩, ⟨1, "t1", "u1", 7, "a1"⟩, ⟨2, "t2", "u2", 1, "a2"⟩,
   ⟨3, "t3", "u3", 5, "a3"⟩, ⟨4, "t4", "u4", 7, "a4"⟩, ⟨5, "t5", "u5", 2, "a5"⟩,
   ⟨6, "t6", "u6", 9, "a6"⟩, ⟨7, "t7", "u7", 3, "a7"⟩, ⟨8, "t8", "u8", 6, "a8"⟩,
   ⟨9, "t9", "u9", 0, "a9"⟩, ⟨10, "t10", "u10", 8, "a10"⟩,
   ⟨11, "t11", "u11", 10, "a11"⟩, ⟨12, "t12", "u12", 11, "a12"⟩]

/-- The `c5prs` slice as seen by the `sort.Slice` comparator:
`(CreatedAt, Number)` pairs in slice order. -/
def c5Input : GoSort.GoSlice :=
  c5prs.map (fun pr => (pr.createdAt, pr.number))

/-- The slice produced by the embedded `sort.Slice` run on `c5Input`:
sorted by timestamp, but the two PRs with timestamp 7 have swapped their
relative order (#4 now precedes #1). -/
def c5Output : GoSort.GoSlice :=
  [(0, 9), (1, 2), (2, 5), (3, 7), (4, 0), (5, 3), (6, 8),
   (7, 4), (7, 1), (8, 10), (9, 6), (10, 11), (11, 12)]

/-- A sync environment in which all three round-trips succeed and the
PR's global id resolves to `"PR_ID_1"`. -/
def syncEnvOk : SyncEnv :=
  ⟨.ok "PR_ID_1", .ok (), .ok ()⟩

/-- A sync environment whose `getPullRequestID` call fails. -/
def syncEnvBad : SyncEnv :=
  ⟨.error "boom", .ok (), .ok ()⟩

/-- A fully healthy world used as the base of the concrete scenarios. -/
def baseWorld : World where
  githubToken := "token"
  projectIDResult := .ok "PROJECT_ID"
  orgMembersResult := fun _ => .ok ["alice", "bob"]
  prFetchResult := .ok
    [⟨1, "t1", "u1", .valid 1, "alice"⟩, ⟨2, "t2", "u2", .valid 2, "carol"⟩]
  projectItems := []
  syncEnv := fun _ => syncEnvOk

/-- `baseWorld` with the `GITHUB_TOKEN` variable unset. -/
def worldNoToken : World := { baseWorld with githubToken := "" }

/-- `baseWorld` with a failing project-id lookup. -/
def worldBadProject : World := { baseWorld with projectIDResult := .error "boom" }

/-- `baseWorld` with a failing members listing. -/
def worldBadMembers : World :=
  { baseWorld with orgMembersResult := fun _ => .error "netfail" }

/-- `baseWorld` with a failing PR listing. -/
def worldBadPRs : World := { baseWorld with prFetchResult := .error "netfail" }

/-- `baseWorld` with a PR whose creation timestamp is malformed. -/
def worldBadDate : World :=
  { baseWorld with prFetchResult := .ok [⟨1, "t1", "u1", .malformed, "carol"⟩] }

/-- Flags with `addtoproject` set, as used by the sync scenarios. -/
def c7flags : Flags := { addtoproject := true }

/-- A world with two non-member PRs where the sync of PR #1 fails and
the sync of PR #2 succeeds. -/
def c7world : World where
  githubToken := "token"
  projectIDResult := .ok "PROJECT_ID"
  orgMembersResult := fun _ => .ok ["alice"]
  prFetchResult := .ok
    [⟨1, "t1", "u1", .valid 1, "carol"⟩, ⟨2, "t2", "u2", .valid 2, "dave"⟩]
  projectItems := []
  syncEnv := fun n => if n = 1 then syncEnvBad else syncEnvOk

/-!
Helper lemmas.
-/

theorem mem_mapInsert (l : List String) (a x : String) :
    x ∈ mapInsert l a ↔ x ∈ l ∨ x = a := by
  unfold mapInsert
  split_ifs with ha
  · constructor
    · exact Or.inl
    · rintro (hx | rfl) <;> assumption
  · simp

theorem nodup_mapInsert (l : List String) (a : String) (h : l.Nodup) :
    (mapInsert l a).Nodup := by
  unfold mapInsert
  split_ifs with ha
  · exact h
  · simp [List.nodup_append, h, ha]

theorem mem_foldl_mapInsert (page : List String) :
    ∀ (init : List String) (x : String),
      x ∈ page.foldl mapInsert init ↔ x ∈ init ∨ x ∈ page := by
  induction page with
  | nil => simp
  | cons p ps ih =>
    intro init x
    simp only [List.foldl_cons, ih, mem_mapInsert, List.mem_cons]
    tauto

theorem nodup_foldl_mapInsert (page : List String) :
    ∀ init : List String, init.Nodup → (page.foldl mapInsert init).Nodup := by
  induction page with
  | nil => exact fun _ h => h
  | cons p ps ih => exact fun init h => ih _ (nodup_mapInsert _ _ h)

theorem survivesFilter_eq_true (m : List String) (i : Bool) (b : List String)
    (a : String) :
    survivesFilter m i b a = true ↔ a ∉ m ∧ (i = true ∨ a ∉ b) := by
  cases i <;>
    simp [survivesFilter, List.contains, List.elem_iff]

theorem fetchOrgMembersLoop_spec :
    ∀ (n : Nat) (remaining members : List String) (requests : Nat),
      remaining.length ≤ n →
      (fetchOrgMembersLoop remaining members requests).2
          = requests + remaining.length / 100 + 1
        ∧ (∀ x, x ∈ (fetchOrgMembersLoop remaining members requests).1
            ↔ x ∈ members ∨ x ∈ remaining)
        ∧ (members.Nodup → (fetchOrgMembersLoop remaining members requests).1.Nodup) := by
  intro n
  induction n with
  | zero =>
    intro remaining members requests hlen
    have hnil : remaining = [] := List.eq_nil_of_length_eq_zero (Nat.le_zero.mp hlen)
    subst hnil
    rw [fetchOrgMembersLoop]
    simp
  | succ n ih =>
    intro remaining members requests hlen
    rw [fetchOrgMembersLoop]
    by_cases h100 : (remaining.take 100).length < 100
    · rw [dif_pos h100]
      have hlt : remaining.length < 100 := by
        simpa [List.length_take] using h100
      have htake : remaining.take 100 = remaining :=
        List.take_of_length_le (Nat.le_of_lt hlt)
      rw [htake]
      refine ⟨by omega, fun x => ?_, fun h => nodup_foldl_mapInsert _ _ h⟩
      exact mem_foldl_mapInsert _ _ _
    · rw [dif_neg h100]
      have hge : 100 ≤ remaining.length := by
        by_contra hcon
        exact h100 (by simp [List.length_take]; omega)
      have hdrop : (remaining.drop 100).length ≤ n := by
        simp only [List.length_drop]; omega
      obtain ⟨ih1, ih2, ih3⟩ :=
        ih (remaining.drop 100) (List.foldl mapInsert members (remaining.take 100))
          (requests + 1) hdrop
      refine ⟨?_, fun x => ?_, fun h => ih3 (nodup_foldl_mapInsert _ _ h)⟩
      · rw [ih1]
        simp only [List.length_drop]
        omega
      · rw [ih2, mem_foldl_mapInsert]
        conv_rhs => rw [← List.take_append_drop 100 remaining]
        simp only [List.mem_append]
        tauto

theorem reportLoop_reported (m : List String) (i : Bool) (b : List String)
    (atp : Bool) (env : Nat → SyncEnv) :
    ∀ (prs : List PullRequest) (items : List ProjectItem),
      (reportLoop m i b atp env prs items).1.reported
        = prs.filter (fun pr => survivesFilter m i b pr.author) := by
  intro prs
  induction prs with
  | nil => intro items; rfl
  | cons pr rest ih =>
    intro items
    by_cases hs : survivesFilter m i b pr.author = true
    · cases atp <;>
        simp [reportLoop, hs, ih, List.filter_cons_of_pos]
    · simp [reportLoop, Bool.of_not_eq_true hs, ih,
        List.filter_cons_of_neg (by simpa using hs)]

theorem reportLoop_syncLog (m : List String) (i : Bool) (b : List String)
    (env : Nat → SyncEnv) :
    ∀ (prs : List PullRequest) (items : List ProjectItem),
      ((reportLoop m i b true env prs items).1.syncLog).map Prod.fst
        = ((reportLoop m i b true env prs items).1.reported).map PullRequest.number := by
  intro prs
  induction prs with
  | nil => intro items; rfl
  | cons pr rest ih =>
    intro items
    by_cases hs : survivesFilter m i b pr.author = true
    · simp [reportLoop, hs, ih]
    · simp [reportLoop, Bool.of_not_eq_true hs, ih]

theorem reportLoop_errLog_cons (m : List String) (i : Bool) (b : List String)
    (env : Nat → SyncEnv) (pr : PullRequest) (rest : List PullRequest)
    (items : List ProjectItem) (e : String)
    (hs : survivesFilter m i b pr.author = true)
    (he : (addPRToProject (env pr.number) pr.number items).1 = .error e) :
    (reportLoop m i b true env (pr :: rest) items).1.errLog
      = ("Error adding PR #" ++ toString pr.number ++ " to project: " ++ e)
        :: (reportLoop m i b true env rest
              (addPRToProject (env pr.number) pr.number items).2.1).1.errLog := by
  simp [reportLoop, hs, he]

theorem fetchMembersPhase_error (w : World) :
    ∀ (orgs : List String) (acc : List String) (org : String) (e : String),
      org ∈ orgs → w.orgMembersResult org = .error e →
      ∃ e' tr, fetchMembersPhase w orgs acc = (.error e', tr) := by
  intro orgs
  induction orgs with
  | nil => intro acc org e hmem; exact absurd hmem (List.not_mem_nil org)
  | cons o os ih =>
    intro acc org e hmem herr
    rcases List.mem_cons.mp hmem with rfl | htail
    · refine ⟨"Error fetching members from " ++ org ++ " organization: " ++ e,
        [NetCall.memberFetch org], ?_⟩
      simp [fetchMembersPhase, herr]
    · rcases ho : w.orgMembersResult o with eo | ms
      · refine ⟨"Error fetching members from " ++ o ++ " organization: " ++ eo,
          [NetCall.memberFetch o], ?_⟩
        simp [fetchMembersPhase, ho]
      · obtain ⟨e', tr, htl⟩ := ih (List.foldl mapInsert acc ms) org e htail herr
        refine ⟨e', NetCall.memberFetch o :: tr, ?_⟩
        simp [fetchMembersPhase, ho, htl]

theorem fetchMembersPhase_ok (w : World) :
    ∀ (orgs : List String) (acc : List String),
      (∀ org ∈ orgs, ∃ ms, w.orgMembersResult org = .ok ms) →
      ∃ members tr, fetchMembersPhase w orgs acc = (.ok members, tr) := by
  intro orgs
  induction orgs with
  | nil => intro acc _; exact ⟨acc, [], rfl⟩
  | cons o os ih =>
    intro acc hall
    obtain ⟨ms, hms⟩ := hall o (List.mem_cons_self o os)
    obtain ⟨members, tr, htl⟩ :=
      ih (List.foldl mapInsert acc ms) (fun org h => hall org (List.mem_cons_of_mem o h))
    refine ⟨members, NetCall.memberFetch o :: tr, ?_⟩
    simp [fetchMembersPhase, hms, htl]

theorem parsePRs_error_of_malformed :
    ∀ (raws : List RawPR) (r : RawPR),
      r ∈ raws → r.createdAt = .malformed →
      ∃ e, parsePRs raws = .error e := by
  intro raws
  induction raws with
  | nil => intro r hmem; exact absurd hmem (List.not_mem_nil r)
  | cons r0 rest ih =>
    intro r hmem hmal
    rcases hc : r0.createdAt with t | _
    · rcases List.mem_cons.mp hmem with rfl | htail
      · rw [hc] at hmal; exact absurd hmal (by simp)
      · obtain ⟨e, he⟩ := ih r htail hmal
        rcases hrest : parsePRs rest with e' | tl
        · exact ⟨e', by simp [parsePRs, hc, parseTime, hrest]⟩
        · rw [hrest] at he; exact absurd he (by simp)
    · exact ⟨"Error parsing date-time", by simp [parsePRs, hc, parseTime]⟩

/-!
Claim theorems.
-/

/-- C1: for every member set, PR list, and bot-exclusion configuration,
the set of PRs printed by the report loop is exactly the set of input
PRs whose author is not in the member set and is either admitted by the
`includebots` flag or absent from the bot-exclusion list; no other PR is
printed and none of these is omitted. -/
theorem C1_reported_set (m : List String) (i : Bool) (b : List String) (atp : Bool)
    (env : Nat → SyncEnv) (prs : List PullRequest) (items : List ProjectItem)
    (pr : PullRequest) :
    pr ∈ (reportLoop m i b atp env prs items).1.reported
      ↔ pr ∈ prs ∧ pr.author ∉ m ∧ (i = true ∨ pr.author ∉ b) := by
  rw [reportLoop_reported]
  simp only [List.mem_filter, survivesFilter_eq_true]

unseal String.splitOnAux in
/-- C2 (evaluation at the claim's failing input): in the spec's example
scenario — members `alice` and `bob`, open PRs `#1` by `alice`, `#2` by
`carol`, `#3` by `bots-app[bot]`, `includebots = false`,
`botstoexclude = ""` — the report loop prints `#2` AND `#3`: the code
never consults the `[bot]` login-marker convention, it only matches the
author against the (here empty) `botstoexclude` list, so the bot's PR is
not excluded; with `includebots = true` the output is the same. -/
theorem C2_bot_pr_not_excluded :
    ((reportLoop c2members false ("".splitOn ",") false (fun _ => syncEnvOk)
        (sortByCreatedAt c2prs) []).1.reported).map PullRequest.number = [2, 3]
    ∧ ((reportLoop c2members true ("".splitOn ",") false (fun _ => syncEnvOk)
        (sortByCreatedAt c2prs) []).1.reported).map PullRequest.number = [2, 3] := by
  refine ⟨?_, ?_⟩ <;> decide

/-- C3 (amended): against a mocked listing of `total` members served in
pages of 100, `fetchOrgMembers` terminates having issued exactly
`total / 100 + 1` HTTP requests (one per page, including the final short
page that stops the loop) and produces a duplicate-free member set
containing exactly the listed logins. -/
theorem C3_fetchOrgMembers_pagination (all : List String) :
    (fetchOrgMembers all).2 = all.length / 100 + 1
      ∧ (fetchOrgMembers all).1.Nodup
      ∧ (∀ x, x ∈ (fetchOrgMembers all).1 ↔ x ∈ all) := by
  obtain ⟨h1, h2, h3⟩ := fetchOrgMembersLoop_spec all.length all [] 0 (Nat.le_refl _)
  exact ⟨by simpa using h1, h3 List.nodup_nil, fun x => by simpa using h2 x⟩

unseal fetchOrgMembersLoop in
/-- C3 (counterexample): a mocked listing with exactly 100 members
satisfies the claim's hypotheses — page 1 (the only page before the
last) returns exactly 100 items and page 2 is empty, so the listing is
exhausted — yet `fetchOrgMembers` issues 2 HTTP requests where the claim
demands `ceil(100/100) = 1`: the loop cannot know the listing is
exhausted until a request returns a short page. -/
theorem C3_counterexample :
    (pagedListing c3mock 1).length = 100
      ∧ pagedListing c3mock 2 = []
      ∧ c3mock.length = 100
      ∧ (fetchOrgMembers c3mock).2 = 2
      ∧ (c3mock.length + 100 - 1) / 100 = 1
      ∧ (fetchOrgMembers c3mock).2 ≠ (c3mock.length + 100 - 1) / 100 := by
  refine ⟨rfl, rfl, rfl, rfl, rfl, ?_⟩
  decide

/-- C4: the fetched PR list is sorted by creation timestamp in ascending
order before filtering (`sortByCreatedAt prs` is a nondecreasing
permutation of the fetched PRs), and therefore in the printed output
every pair of adjacent PRs is in nondecreasing creation order — the
earliest-created PRs come first and the most recent last. -/
theorem C4_sorted_ascending (m : List String) (i : Bool) (b : List String)
    (atp : Bool) (env : Nat → SyncEnv) (prs : List PullRequest)
    (items : List ProjectItem) :
    List.Sorted createdAtLE (sortByCreatedAt prs)
      ∧ List.Perm (sortByCreatedAt prs) prs
      ∧ List.Sorted createdAtLE
          ((reportLoop m i b atp env (sortByCreatedAt prs) items).1.reported) := by
  refine ⟨List.sorted_insertionSort createdAtLE prs,
    List.perm_insertionSort createdAtLE prs, ?_⟩
  rw [reportLoop_reported]
  exact List.Pairwise.sublist (List.filter_sublist _)
    (List.sorted_insertionSort createdAtLE prs)

unseal GoSort.insertionSortInner GoSort.insertionSortOuter GoSort.siftDownLoop
  GoSort.reverseRangeLoop GoSort.scanAscending GoSort.shiftLeftLoop
  GoSort.shiftRightLoop in
/-- C5 (evaluation at the failing input): running the embedded
`sort.Slice` (Go's pdqsort exactly as called by `main.go` lines 148-150)
on the 13-PR slice `c5Input` completes (`some`) and returns `c5Output`,
in which the two PRs with equal creation timestamp 7 appear in the
opposite of their original relative order: PR #1 precedes PR #4 in the
input, but PR #4 precedes PR #1 in the output. `sort.Slice` is not
stable, contradicting the claim that equal-timestamp PRs keep their
original relative order. -/
theorem C5_sortSlice_unstable :
    GoSort.sortSlice c5Input = some c5Output
      ∧ c5Input.indexOf (7, 1) < c5Input.indexOf (7, 4)
      ∧ c5Output.indexOf (7, 4) < c5Output.indexOf (7, 1) := by
  refine ⟨rfl, by decide, by decide⟩

/-- C6: each setup/fetch error condition aborts the run fatally with no
report: an absent `GITHUB_TOKEN` aborts before any network call (the
call trace is empty); a member-fetch failure for any configured
organization, a PR-fetch failure, and a malformed creation timestamp
each produce a fatal error result. -/
theorem C6_fatal_setup_errors :
    (∀ (f : Flags) (w : World), w.githubToken = "" →
        runMain f w = (.error "GITHUB_TOKEN is required", []))
    ∧ (∀ (f : Flags) (w : World) (org e : String), w.githubToken ≠ "" →
        (∃ pid, w.projectIDResult = .ok pid) →
        org ∈ f.orgs.splitOn "," → w.orgMembersResult org = .error e →
        ∃ e', (runMain f w).1 = .error e')
    ∧ (∀ (f : Flags) (w : World) (e : String), w.githubToken ≠ "" →
        (∃ pid, w.projectIDResult = .ok pid) →
        (∀ org ∈ f.orgs.splitOn ",", ∃ ms, w.orgMembersResult org = .ok ms) →
        w.prFetchResult = .error e →
        (runMain f w).1 = .error ("Error fetching PRs: " ++ e))
    ∧ (∀ (f : Flags) (w : World) (raws : List RawPR) (r : RawPR),
        w.githubToken ≠ "" →
        (∃ pid, w.projectIDResult = .ok pid) →
        (∀ org ∈ f.orgs.splitOn ",", ∃ ms, w.orgMembersResult org = .ok ms) →
        w.prFetchResult = .ok raws → r ∈ raws → r.createdAt = .malformed →
        ∃ e', (runMain f w).1 = .error e') := by
  refine ⟨?_, ?_, ?_, ?_⟩
  · intro f w h
    simp [runMain, h]
  · intro f w org e htok hpid horg herr
    obtain ⟨pid, hpid⟩ := hpid
    obtain ⟨e', tr, hphase⟩ :=
      fetchMembersPhase_error w (f.orgs.splitOn ",") [] org e horg herr
    exact ⟨e', by simp [runMain, runMainAfterToken, htok, hpid, hphase]⟩
  · intro f w e htok hpid hall herr
    obtain ⟨pid, hpid⟩ := hpid
    obtain ⟨members, tr, hphase⟩ :=
      fetchMembersPhase_ok w (f.orgs.splitOn ",") [] hall
    simp [runMain, runMainAfterToken, htok, hpid, hphase, herr]
  · intro f w raws r htok hpid hall hraws hr hmal
    obtain ⟨pid, hpid⟩ := hpid
    obtain ⟨members, tr, hphase⟩ :=
      fetchMembersPhase_ok w (f.orgs.splitOn ",") [] hall
    obtain ⟨e0, hparse⟩ := parsePRs_error_of_malformed raws r hr hmal
    exact ⟨e0, by simp [runMain, runMainAfterToken, htok, hpid, hphase, hraws, hparse]⟩

unseal String.splitOnAux in
/-- Witness for `C6_fatal_setup_errors` at concrete worlds: a run
without a token, a run whose `rancher` members listing fails, a run
whose PR listing fails, and a run returning a PR with a malformed
timestamp. -/
theorem C6_witness :
    runMain {} worldNoToken = (.error "GITHUB_TOKEN is required", [])
    ∧ (∃ e', (runMain {} worldBadMembers).1 = .error e')
    ∧ (runMain {} worldBadPRs).1 = .error ("Error fetching PRs: " ++ "netfail")
    ∧ (∃ e', (runMain {} worldBadDate).1 = .error e') :=
  ⟨C6_fatal_setup_errors.1 {} worldNoToken rfl,
   C6_fatal_setup_errors.2.1 {} worldBadMembers "rancher" "netfail"
     (by decide) ⟨"PROJECT_ID", rfl⟩ (by decide) rfl,
   C6_fatal_setup_errors.2.2.1 {} worldBadPRs "netfail"
     (by decide) ⟨"PROJECT_ID", rfl⟩ (fun org _ => ⟨["alice", "bob"], rfl⟩) rfl,
   C6_fatal_setup_errors.2.2.2 {} worldBadDate
     [⟨1, "t1", "u1", .malformed, "carol"⟩] ⟨1, "t1", "u1", .malformed, "carol"⟩
     (by decide) ⟨"PROJECT_ID", rfl⟩ (fun org _ => ⟨["alice", "bob"], rfl⟩)
     rfl (List.mem_singleton.mpr rfl) rfl⟩

/-- C7: per-PR sync failures are non-fatal. For every sync environment —
including ones where every call fails — the report loop prints exactly
the filtered PRs and emits one sync line per printed PR, so no PR after
a failing one is dropped; a failing sync logs its error and the loop
moves to the next PR with that PR's sync skipped; and whenever the
setup/fetch phases succeed, the whole run succeeds with the full
filtered report, with no assumption at all on the sync oracles. -/
theorem C7_sync_errors_nonfatal :
    (∀ (m : List String) (i : Bool) (b : List String) (env : Nat → SyncEnv)
        (prs : List PullRequest) (items : List ProjectItem),
        (reportLoop m i b true env prs items).1.reported
            = prs.filter (fun pr => survivesFilter m i b pr.author)
          ∧ ((reportLoop m i b true env prs items).1.syncLog).map Prod.fst
            = ((reportLoop m i b true env prs items).1.reported).map PullRequest.number)
    ∧ (∀ (m : List String) (i : Bool) (b : List String) (env : Nat → SyncEnv)
        (pr : PullRequest) (rest : List PullRequest) (items : List ProjectItem)
        (e : String),
        survivesFilter m i b pr.author = true →
        (addPRToProject (env pr.number) pr.number items).1 = .error e →
        (reportLoop m i b true env (pr :: rest) items).1.errLog
          = ("Error adding PR #" ++ toString pr.number ++ " to project: " ++ e)
            :: (reportLoop m i b true env rest
                  (addPRToProject (env pr.number) pr.number items).2.1).1.errLog)
    ∧ (∀ (f : Flags) (w : World) (members : List String) (tr : List NetCall)
        (raws : List RawPR) (prs : List PullRequest),
        w.githubToken ≠ "" →
        (∃ pid, w.projectIDResult = .ok pid) →
        fetchMembersPhase w (f.orgs.splitOn ",") [] = (.ok members, tr) →
        w.prFetchResult = .ok raws →
        parsePRs raws = .ok prs →
        ∃ rep, (runMain f w).1 = .ok rep
          ∧ rep.reported = (sortByCreatedAt prs).filter
              (fun pr => survivesFilter members f.includebots
                (f.botstoexclude.splitOn ",") pr.author)) := by
  refine ⟨?_, ?_, ?_⟩
  · intro m i b env prs items
    exact ⟨reportLoop_reported m i b true env prs items,
      reportLoop_syncLog m i b env prs items⟩
  · intro m i b env pr rest items e hs he
    exact reportLoop_errLog_cons m i b env pr rest items e hs he
  · intro f w members tr raws prs htok hpid hphase hraws hparse
    obtain ⟨pid, hpid⟩ := hpid
    refine ⟨(reportLoop members f.includebots (f.botstoexclude.splitOn ",")
        f.addtoproject w.syncEnv (sortByCreatedAt prs) w.projectItems).1, ?_, ?_⟩
    · simp [runMain, runMainAfterToken, htok, hpid, hphase, hraws, hparse]
    · exact reportLoop_reported members f.includebots (f.botstoexclude.splitOn ",")
        f.addtoproject w.syncEnv (sortByCreatedAt prs) w.projectItems

unseal String.splitOnAux in
/-- Witness for `C7_sync_errors_nonfatal` at a concrete world in which
the sync of PR #1 fails (`getPullRequestID` errors) while PR #2 follows
it: the run still succeeds and the report contains both non-member PRs,
numbers 1 and 2. -/
theorem C7_witness :
    (∃ rep, (runMain c7flags c7world).1 = .ok rep
      ∧ rep.reported
          = (sortByCreatedAt
              [⟨1, "t1", "u1", 1, "carol"⟩, ⟨2, "t2", "u2", 2, "dave"⟩]).filter
              (fun pr => survivesFilter ["alice"] c7flags.includebots
                (c7flags.botstoexclude.splitOn ",") pr.author))
    ∧ (addPRToProject (c7world.syncEnv 1) 1 c7world.projectItems).1
        = .error ("error fetching global ID for PR: " ++ "boom")
    ∧ ((sortByCreatedAt
          [⟨1, "t1", "u1", 1, "carol"⟩, ⟨2, "t2", "u2", 2, "dave"⟩]).filter
          (fun pr => survivesFilter ["alice"] c7flags.includebots
            (c7flags.botstoexclude.splitOn ",") pr.author)).map PullRequest.number
        = [1, 2] :=
  ⟨C7_sync_errors_nonfatal.2.2 c7flags c7world ["alice"]
      [NetCall.memberFetch "rancher", NetCall.memberFetch "SUSE"]
      [⟨1, "t1", "u1", .valid 1, "carol"⟩, ⟨2, "t2", "u2", .valid 2, "dave"⟩]
      [⟨1, "t1", "u1", 1, "carol"⟩, ⟨2, "t2", "u2", 2, "dave"⟩]
      (by decide) ⟨"PROJECT_ID", rfl⟩ rfl rfl rfl,
   rfl,
   by decide⟩

/-- C8: the project sync is idempotent. If a first `addPRToProject` call
for a PR succeeds with the newly-added outcome and the subsequent
project-items listing reports the created link, then a second call for
the same PR (same resolved id, healthy listing transport) returns the
already-present outcome, leaves the project unchanged, and issues no
`addProjectV2ItemById` mutation; and the mutation is ever issued only
when the existing-link check found no item whose content id matches the
PR's. -/
theorem C8_sync_idempotent :
    (∀ (env env' : SyncEnv) (n n' : Nat) (prID : String)
        (items items₁ : List ProjectItem) (calls₁ : List NetCall),
        env.prIDResult = .ok prID →
        addPRToProject env n items = (.ok true, items₁, calls₁) →
        env'.prIDResult = .ok prID →
        env'.itemsTransport = .ok () →
        checkPRInProject items₁ prID = true →
        addPRToProject env' n' items₁
          = (.ok false, items₁, [.prIDLookup n', .itemsList]))
    ∧ (∀ (env : SyncEnv) (n : Nat) (items : List ProjectItem),
        NetCall.addItem ∈ (addPRToProject env n items).2.2 →
        ∃ prID, env.prIDResult = .ok prID ∧ checkPRInProject items prID = false) := by
  constructor
  · intro env env' n n' prID items items₁ calls₁ _hid _hfirst hid' htr hcheck
    simp [addPRToProject, hid', htr, hcheck]
  · intro env n items hmem
    rcases hid : env.prIDResult with e | prID
    · simp [addPRToProject, hid] at hmem
    · rcases htr : env.itemsTransport with e | u
      · simp [addPRToProject, hid, htr] at hmem
      · rcases hcheck : checkPRInProject items prID with _ | _
        · exact ⟨prID, rfl, hcheck⟩
        · simp [addPRToProject, hid, htr, hcheck] at hmem

/-- Witness for `C8_sync_idempotent`: starting from an empty project, a
first call links the PR (`.ok true`); the second call on the resulting
state returns `.ok false`, leaves the item list unchanged and issues no
mutation; and a run that does issue the mutation (the first call) indeed
found no matching item beforehand. -/
theorem C8_witness :
    addPRToProject syncEnvOk 1 [⟨"PR_ID_1", "PR_ID_1"⟩]
        = (.ok false, [⟨"PR_ID_1", "PR_ID_1"⟩], [.prIDLookup 1, .itemsList])
    ∧ (∃ prID, syncEnvOk.prIDResult = .ok prID
        ∧ checkPRInProject [] prID = false) :=
  ⟨C8_sync_idempotent.1 syncEnvOk syncEnvOk 1 1 "PR_ID_1" []
      [⟨"PR_ID_1", "PR_ID_1"⟩] [.prIDLookup 1, .itemsList, .addItem]
      rfl rfl rfl rfl rfl,
   C8_sync_idempotent.2 syncEnvOk 1 [] (by decide)⟩

unseal String.splitOnAux in
/-- C9: with the default flags (`includebots = false`,
`botstoexclude = ""`) a non-member PR whose author login is the empty
string is not printed: `strings.Split("", ",")` yields `[""]`, and the
empty author login matches that entry of the exclusion list. -/
theorem C9_empty_author_excluded (members : List String)
    (prs : List PullRequest) (env : Nat → SyncEnv) (items : List ProjectItem)
    (atp : Bool) (pr : PullRequest)
    (hauthor : pr.author = "")
    (_hmem : "" ∉ members) :
    "".splitOn "," = [""]
      ∧ pr ∉ (reportLoop members false ("".splitOn ",") atp env prs items).1.reported := by
  have hsplit : "".splitOn "," = [""] := rfl
  refine ⟨hsplit, ?_⟩
  intro hin
  rw [reportLoop_reported, List.mem_filter] at hin
  have hsurv := hin.2
  rw [survivesFilter_eq_true] at hsurv
  rcases hsurv.2 with hbot | hnotin
  · exact Bool.false_ne_true hbot
  · rw [hsplit, hauthor] at hnotin
    exact hnotin (List.mem_singleton.mpr rfl)

unseal String.splitOnAux in
/-- Witness for `C9_empty_author_excluded`: a PR by a deleted account
(empty login), not a member of `["alice"]`, is absent from the report
under the default flags. -/
theorem C9_witness :
    "".splitOn "," = [""]
      ∧ (⟨7, "t7", "u7", 0, ""⟩ : PullRequest)
          ∉ (reportLoop ["alice"] false ("".splitOn ",") false (fun _ => syncEnvOk)
              [⟨7, "t7", "u7", 0, ""⟩] []).1.reported :=
  C9_empty_author_excluded ["alice"] [⟨7, "t7", "u7", 0, ""⟩]
    (fun _ => syncEnvOk) [] false ⟨7, "t7", "u7", 0, ""⟩ rfl (by decide)

/-- C10: after the token check succeeds, the project-board id lookup is
the first network call of every run — in particular it happens before
any member or PR fetch and also when `addtoproject` is false — and a
failing lookup aborts the run fatally with the lookup as the only call
issued, so no report is produced. -/
theorem C10_project_lookup_unconditional :
    (∀ (f : Flags) (w : World), w.githubToken ≠ "" →
        (runMain f w).2.head? = some NetCall.projectLookup)
    ∧ (∀ (f : Flags) (w : World) (e : String), w.githubToken ≠ "" →
        w.projectIDResult = .error e →
        runMain f w = (.error ("Failed to fetch project ID: " ++ e),
          [NetCall.projectLookup])) := by
  constructor
  · intro f w htok
    simp [runMain, htok]
  · intro f w e htok herr
    simp [runMain, runMainAfterToken, htok, herr]

/-- Witness for `C10_project_lookup_unconditional`: with the default
flags (`addtoproject = false`) the healthy world's first call is the
project lookup, and the world whose lookup fails aborts with exactly
that one call issued. -/
theorem C10_witness :
    (runMain {} baseWorld).2.head? = some NetCall.projectLookup
      ∧ runMain {} worldBadProject
          = (.error ("Failed to fetch project ID: " ++ "boom"),
            [NetCall.projectLookup]) :=
  ⟨C10_project_lookup_unconditional.1 {} baseWorld (by decide),
   C10_project_lookup_unconditional.2 {} worldBadProject "boom" (by decide) rfl⟩
